import Mathlib

/-!
# Verification of `scripts/run_dpo.py`

A shallow embedding, in Lean 4, of the DPO reward-model evaluation script
`scripts/run_dpo.py` of the reward-bench repository, together with theorems
settling the specified properties of that script.

Python floats are modelled as rationals (`ℚ`): only ordering and exact
field arithmetic on scores matter to the properties below.  Stateful parts
(the local filesystem, the remote upload, fallible library calls) are
modelled by explicit state passing and `Except`.
-/

namespace RunDPO

/-! ## Command-line interface (`get_args`, lines 42-57) -/

/-- The kind of an `argparse` argument as declared in `get_args`:
a string option with an optional default, a `store_true` boolean flag
(defaulting to `False`), or an integer option with a default. -/
inductive ArgKind where
  | str (default : Option String)
  | storeTrue
  | int (default : Int)
  deriving DecidableEq, Repr

/-- The argument table built by `get_args` (lines 46-55), in declaration
order: flag name paired with its kind and default. -/
def cliArgs : List (String × ArgKind) :=
  [ ("--model", .str (some "natolambert/gpt2-dummy-rm")),
    ("--ref_model", .str (some "natolambert/gpt2-dummy-rm")),
    ("--tokenizer", .str none),
    ("--chat_template", .str (some "tulu")),
    ("--do_not_save", .storeTrue),
    ("--batch_size", .int 64),
    ("--pref_sets", .storeTrue) ]

/-- The parsed arguments record (`args` in `main`).  `tokenizer` is
`Option String` because its `argparse` default is `None`. -/
structure Args where
  model : String
  ref_model : String
  tokenizer : Option String
  chat_template : String
  do_not_save : Bool
  batch_size : Nat
  pref_sets : Bool
  deriving DecidableEq, Repr

/-- A concrete parsed-arguments record (every default, saving enabled),
used as an evaluation point. -/
def sampleArgs : Args :=
  ⟨"natolambert/gpt2-dummy-rm", "natolambert/gpt2-dummy-rm", none, "tulu",
   false, 64, false⟩

/-! ## Tokenizer path selection (line 91) -/

/-- Python truthiness of an optional string: `None` and `""` are falsy. -/
def strOptTruthy : Option String → Bool
  | none => false
  | some s => !(s == "")

/-- Line 91: `tokenizer_path = args.tokenizer if args.tokenizer else args.model`. -/
def tokenizer_path (tokenizer : Option String) (model : String) : String :=
  if strOptTruthy tokenizer then tokenizer.getD model else model

/-! ## Per-batch result recording (lines 149-164)

`dpo.inference_step` returns a list of chosen rewards and a list of
rejected rewards for a batch; the list comprehension at lines 161-164
appends, for each zipped pair, `1` if `chosen > rejected` else `0`. -/

/-- Lines 161-164: for each `(chosen, rejected)` in
`zip(score_chosen, score_rejected)`, record `1` if `chosen > rejected`
else `0`, in order. -/
def recordBatch (score_chosen score_rejected : List ℚ) : List ℕ :=
  (List.zip score_chosen score_rejected).map
    (fun cr => if cr.2 < cr.1 then 1 else 0)

/-! ## The batched dataloader (lines 132-143)

`torch.utils.data.DataLoader(..., batch_size=B, shuffle=False,
drop_last=False)` yields the dataset's records in order, in consecutive
groups of `B`, the final group possibly shorter.  `batchesGo` is
fuel-indexed; `batches` supplies fuel equal to the dataset length, which
suffices whenever the batch size is positive. -/

/-- Fuel-indexed batching: take `b` records, recurse on the rest. -/
def batchesGo (b : ℕ) : ℕ → List α → List (List α)
  | _, [] => []
  | fuel + 1, x :: xs => ((x :: xs).take b) :: batchesGo b fuel ((x :: xs).drop b)
  | 0, _ :: _ => []

/-- The sequence of batches the dataloader yields: consecutive groups of
`b` records, in dataset order, the last group possibly partial. -/
def batches (b : ℕ) (l : List α) : List (List α) :=
  batchesGo b l.length l

/-! ## DPO implicit rewards (`dpo.inference_step`, line 149)

Modelled from the spec: `DPOInference` lives in the `herm` package, which
is not under the repository sources given here; per the spec, "it computes
an implicit reward for each side by comparing the policy model's sequence
log-probabilities against a reference model's" — the DPO implicit reward
of a completion is the policy model's sequence log-probability compared
against (minus) the reference model's. -/

/-- Modelled from the spec: the DPO implicit reward of one completion,
the comparison (difference) of the policy model's sequence
log-probability with the reference model's for that completion. -/
def implicitReward (policy_logp ref_logp : ℚ) : ℚ :=
  policy_logp - ref_logp

/-- Modelled from the spec: `dpo.inference_step` on a batch returns the
chosen-side rewards and the rejected-side rewards, each record's reward
being the implicit reward computed from the policy and reference
sequence log-probabilities of that record's completion.
`policy_logp x` (resp. `ref_logp x`) gives the (chosen, rejected)
sequence log-probabilities of record `x` under the policy (resp.
reference) model. -/
def inference_step (policy_logp ref_logp : α → ℚ × ℚ) (batch : List α) :
    List ℚ × List ℚ :=
  (batch.map (fun x => implicitReward (policy_logp x).1 (ref_logp x).1),
   batch.map (fun x => implicitReward (policy_logp x).2 (ref_logp x).2))

/-! ## The inference loop (lines 145-164) -/

/-- Lines 145-164: starting from `results = []`, for each batch run
`dpo.inference_step` and append the per-pair 0/1 outcomes. -/
def runLoop (policy_logp ref_logp : α → ℚ × ℚ)
    (batchList : List (List α)) : List ℕ :=
  batchList.foldl
    (fun results batch =>
      let step := inference_step policy_logp ref_logp batch
      results ++ recordBatch step.1 step.2)
    []

/-! ## Grouped results (lines 174-184)

`results_grouped` is a Python `dict` (string keys, insertion-ordered,
assignment to an existing key overwrites in place).  Values are either
strings (model name, chat template) or numbers (accuracies), modelled by
`JVal`. -/

/-- A JSON-able value stored in `results_grouped`. -/
inductive JVal where
  | str (s : String)
  | num (q : ℚ)
  deriving DecidableEq, Repr

/-- Python `dict` assignment `d[k] = v`: overwrite in place if the key is
present, else append at the end. -/
def dictSet : List (String × JVal) → String → JVal → List (String × JVal)
  | [], k, v => [(k, v)]
  | kv :: d, k, v => if kv.1 = k then (k, v) :: d else kv :: dictSet d k v

/-- Python `dict` lookup (first — and only — entry with the key). -/
def dictGet (d : List (String × JVal)) (k : String) : Option JVal :=
  match d with
  | [] => none
  | kv :: d => if kv.1 = k then some kv.2 else dictGet d k

/-- Code-point comparison of character lists, the lexicographic order
`np.unique` and `json.dumps(sort_keys=True)` sort string keys by. -/
def charListLe : List Char → List Char → Bool
  | [], _ => true
  | _ :: _, [] => false
  | a :: as, b :: bs => if a < b then true else if b < a then false else charListLe as bs

/-- Lexicographic (code-point) order on strings. -/
def strLe (s t : String) : Bool := charListLe s.data t.data

/-- Insert a string into a `strLe`-sorted list, keeping it sorted. -/
def insertSorted (s : String) : List String → List String
  | [] => [s]
  | x :: xs => if strLe s x then s :: x :: xs else x :: insertSorted s xs

/-- Insertion sort of strings by `strLe`. -/
def sortStrings (l : List String) : List String := l.foldr insertSorted []

/-- `np.unique(subsets)` (line 178): the sorted list of distinct labels. -/
def npUnique (l : List String) : List String := sortStrings l.dedup

/-- The rows of `out_dataset` restricted to the columns the grouping
reads: `(subset, result)` per record (lines 170-172). -/
abbrev Row := String × ℕ

/-- The `results` column of the rows whose `subset` column equals `s`
(line 180's `filter` followed by reading `"results"`). -/
def subsetResults (rows : List Row) (s : String) : List ℕ :=
  (rows.filter (fun r => r.1 == s)).map Prod.snd

/-- Line 181: `num_correct = sum(subset_dataset["results"])`. -/
def num_correct (rows : List Row) (s : String) : ℕ :=
  (subsetResults rows s).sum

/-- Line 182: `num_total = len(subset_dataset["results"])`. -/
def num_total (rows : List Row) (s : String) : ℕ :=
  (subsetResults rows s).length

/-- Line 184: the subset's accuracy `num_correct / num_total`. -/
def subsetAccuracy (rows : List Row) (s : String) : ℚ :=
  (num_correct rows s : ℚ) / (num_total rows s : ℚ)

/-- Lines 174-184: build `results_grouped` — first the `"model"` and
`"chat_template"` entries, then one accuracy entry per label of
`np.unique(subsets)`. -/
def resultsGrouped (model chat_template : String) (rows : List Row) :
    List (String × JVal) :=
  let d0 := dictSet (dictSet [] "model" (.str model)) "chat_template" (.str chat_template)
  (npUnique (rows.map Prod.fst)).foldl
    (fun d s => dictSet d s (.num (subsetAccuracy rows s))) d0

/-! ## JSON serialization (line 190)

`json.dumps(results_grouped, indent=4, sort_keys=True, default=str)`:
entries sorted by key, rendered one per line with a four-space indent.
The rendering of an individual value (Python's `repr` of floats and
string quoting) is a library detail kept as a parameter `render`. -/

/-- Insert an entry into a key-sorted entry list, keeping it sorted. -/
def insertPairSorted (kv : String × JVal) :
    List (String × JVal) → List (String × JVal)
  | [] => [kv]
  | x :: xs => if strLe kv.1 x.1 then kv :: x :: xs else x :: insertPairSorted kv xs

/-- Sort the entries of `results_grouped` by key (`sort_keys=True`). -/
def sortPairs (l : List (String × JVal)) : List (String × JVal) :=
  l.foldr insertPairSorted []

/-- `json.dumps(..., indent=4, sort_keys=True)`, with the rendering of a
single value abstracted as `render`. -/
def pyDumps (render : JVal → String) (kvs : List (String × JVal)) : String :=
  match sortPairs kvs with
  | [] => "\x7b\x7d"
  | l =>
    "\x7b\n" ++
      String.intercalate ",\n"
        (l.map (fun kv => "    \"" ++ kv.1 ++ "\": " ++ render kv.2)) ++
    "\n\x7d"

/-! ## Local filesystem effects (lines 192-203) -/

/-- The relevant slice of filesystem state: which directories exist and
the contents of each file path. -/
@[ext]
structure FS where
  dirs : String → Bool
  files : String → Option String

/-- Line 192: `path = "results/metrics.json"`. -/
def resultsPath : String := "results/metrics.json"

/-- Line 193: `dirname = os.path.dirname(path)`. -/
def resultsDirname : String := "results"

/-- Lines 195-196: `if dirname != "": os.makedirs(dirname, exist_ok=True)`. -/
def makedirs (fs : FS) : FS :=
  if resultsDirname = "" then fs
  else { fs with dirs := fun d => if d = resultsDirname then true else fs.dirs d }

/-- Lines 199-200: `if os.path.isfile(path): os.remove(path)`. -/
def removeIfExists (fs : FS) : FS :=
  if (fs.files resultsPath).isSome then
    { fs with files := fun p => if p = resultsPath then none else fs.files p }
  else fs

/-- Lines 202-203: `with open(path, "w") as f: f.write(dumped)`. -/
def writeFile (fs : FS) (dumped : String) : FS :=
  { fs with files := fun p => if p = resultsPath then some dumped else fs.files p }

/-- Lines 192-203: the whole local-save phase. -/
def saveLocal (fs : FS) (dumped : String) : FS :=
  writeFile (removeIfExists (makedirs fs)) dumped

/-! ## Remote upload (lines 206-215) -/

/-- Line 39: the hub repository results are pushed to. -/
def EVAL_REPO : String := "ai2-adapt-dev/HERM-Results"

/-- Line 207: `sub_path = "eval-set/" if not args.pref_sets else "pref-sets/"`. -/
def sub_path (pref_sets : Bool) : String :=
  if pref_sets then "pref-sets/" else "eval-set/"

/-- The arguments of the `api.upload_file` call at lines 208-214. -/
structure UploadCall where
  path_or_fileobj : String
  path_in_repo : String
  repo_id : String
  repo_type : String
  commit_message : String
  deriving DecidableEq, Repr

/-- The upload call `main` makes when saving is not suppressed. -/
def uploadCall (args : Args) : UploadCall :=
  { path_or_fileobj := resultsPath,
    path_in_repo := sub_path args.pref_sets ++ args.model ++ ".json",
    repo_id := EVAL_REPO,
    repo_type := "dataset",
    commit_message := "Add reward model scores for  model " ++ args.model }

/-- Lines 190-215: save the dumped JSON locally, then push it to the hub
unless `--do_not_save` was given.  Returns the final filesystem and the
upload call made, if any (`none` = the remote repository is untouched). -/
def saveAndUpload (args : Args) (fs : FS) (dumped : String) :
    FS × Option UploadCall :=
  (saveLocal fs dumped,
   if args.do_not_save then none else some (uploadCall args))

/-! ## Exception flow of `main` (lines 60-215)

`main` wraps every fallible library call without any `try`/`except`.
Each call's outcome is an oracle in `LibEnv`; `mainE` chains them with
`Except.bind` exactly in the order `main` makes them, so an `error`
outcome of any call is the value of the whole run. -/

/-- The outcomes of the fallible library calls `main` makes, in program
order: chat-template lookup (line 85), tokenizer loading (line 92),
dataset loading (line 93), policy and reference model loading (lines
111-118), per-row tokenization (line 130), per-batch inference (line
149), the local file write (lines 192-203) and the hub upload (line 208,
returning the scores URL). -/
structure LibEnv (ε Conv Tok Model Item : Type) where
  get_conv_template : Except ε Conv
  tokenizer_from_pretrained : Except ε Tok
  load_eval_dataset : Except ε (List Item × List String)
  model_from_pretrained : Except ε Model
  ref_model_from_pretrained : Except ε Model
  tokenize_row : Item → Except ε Item
  inference_step_outcome : List Item → Except ε (List ℚ × List ℚ)
  write_results : Except ε Unit
  upload_file : Except ε String

/-- `dataset.map(dpo.tokenize_row, ...)` (line 130): tokenize each row,
stopping at the first raised exception. -/
def mapME (f : α → Except ε β) : List α → Except ε (List β)
  | [] => .ok []
  | x :: xs => (f x).bind fun y => (mapME f xs).map (fun ys => y :: ys)

/-- The inference loop (lines 145-164) over fallible `inference_step`
calls: accumulate 0/1 outcomes, stopping at the first raised exception. -/
def loopE (infer : List α → Except ε (List ℚ × List ℚ)) :
    List (List α) → Except ε (List ℕ)
  | [] => .ok []
  | bt :: bts =>
    (infer bt).bind fun rw =>
      (loopE infer bts).map (fun rest => recordBatch rw.1 rw.2 ++ rest)

/-- The exception flow of `main` (lines 60-215): every library call in
program order, chained with `Except.bind` and no handler anywhere.
Returns the 0/1 results list and the upload URL (if an upload was made). -/
def mainE (args : Args) (env : LibEnv ε Conv Tok Model Item) :
    Except ε (List ℕ × Option String) :=
  env.get_conv_template.bind fun _ =>
  env.tokenizer_from_pretrained.bind fun _ =>
  env.load_eval_dataset.bind fun ds =>
  env.model_from_pretrained.bind fun _ =>
  env.ref_model_from_pretrained.bind fun _ =>
  (mapME env.tokenize_row ds.1).bind fun tds =>
  (loopE env.inference_step_outcome (batches args.batch_size tds)).bind fun results =>
  env.write_results.bind fun _ =>
  if args.do_not_save then .ok (results, none)
  else env.upload_file.map fun url => (results, some url)

end RunDPO

namespace RunDPO

/-! ## Basic lemmas about the loop bodies -/

theorem recordBatch_getElem? (sc sr : List ℚ) (i : ℕ) (c r : ℚ)
    (hc : sc[i]? = some c) (hr : sr[i]? = some r) :
    (recordBatch sc sr)[i]? = some (if r < c then 1 else 0) := by
  unfold recordBatch
  rw [List.getElem?_map]
  have hz : (List.zip sc sr)[i]? = some (c, r) := by
    induction sc generalizing sr i with
    | nil => simp at hc
    | cons a as ih =>
      cases sr with
      | nil => simp at hr
      | cons b bs =>
        cases i with
        | zero =>
          simp at hc hr
          simp [List.zip, hc, hr]
        | succ n =>
          simp at hc hr ⊢
          exact ih _ _ hc hr
  rw [hz]
  rfl

theorem recordBatch_map (f g : α → ℚ) (l : List α) :
    recordBatch (l.map f) (l.map g) =
      l.map (fun x => if g x < f x then 1 else 0) := by
  induction l with
  | nil => rfl
  | cons a as ih =>
    simp only [List.map_cons, recordBatch, List.zip_cons_cons] at *
    simpa using ih

/-! ## Lemmas about the batching of the dataloader -/

theorem batchesGo_flatten (b : ℕ) (hb : 0 < b) :
    ∀ (fuel : ℕ) (l : List α), l.length ≤ fuel →
      (batchesGo b fuel l).flatten = l := by
  intro fuel
  induction fuel with
  | zero =>
    intro l hl
    cases l with
    | nil => rfl
    | cons x xs => simp at hl
  | succ n ih =>
    intro l hl
    cases l with
    | nil => rfl
    | cons x xs =>
      simp only [batchesGo, List.flatten_cons]
      rw [ih ((x :: xs).drop b) ?_, List.take_append_drop]
      have : ((x :: xs).drop b).length = (x :: xs).length - b := by
        simp
      simp only [this, List.length_cons] at *
      omega

/-- With a positive batch size, the concatenation of the dataloader's
batches is the dataset itself: order is preserved and no record is
dropped. -/
theorem batches_flatten (b : ℕ) (hb : 0 < b) (l : List α) :
    (batches b l).flatten = l :=
  batchesGo_flatten b hb l.length l le_rfl

theorem runLoop_append (policy_logp ref_logp : α → ℚ × ℚ)
    (L : List (List α)) (acc : List ℕ) :
    L.foldl
      (fun results batch =>
        let step := inference_step policy_logp ref_logp batch
        results ++ recordBatch step.1 step.2) acc =
    acc ++ (L.map (fun batch =>
      let step := inference_step policy_logp ref_logp batch
      recordBatch step.1 step.2)).flatten := by
  induction L generalizing acc with
  | nil => simp
  | cons bt L ih => simp [ih, List.append_assoc]

/-- The loop's result list is the per-record outcome map over the
flattening of the batches. -/
theorem runLoop_eq_map (policy_logp ref_logp : α → ℚ × ℚ)
    (L : List (List α)) :
    runLoop policy_logp ref_logp L =
      L.flatten.map (fun x =>
        if implicitReward (policy_logp x).2 (ref_logp x).2 <
            implicitReward (policy_logp x).1 (ref_logp x).1
        then 1 else 0) := by
  unfold runLoop
  rw [runLoop_append, List.nil_append]
  have hbatch : ∀ batch : List α,
      (fun batch =>
        let step := inference_step policy_logp ref_logp batch
        recordBatch step.1 step.2) batch =
      batch.map (fun x =>
        if implicitReward (policy_logp x).2 (ref_logp x).2 <
            implicitReward (policy_logp x).1 (ref_logp x).1
        then 1 else 0) := by
    intro batch
    simp only [inference_step]
    exact recordBatch_map _ _ batch
  rw [funext hbatch, ← List.map_flatten]

/-! ## Dictionary and uniqueness lemmas -/

theorem dictGet_dictSet_same (d : List (String × JVal)) (k : String) (v : JVal) :
    dictGet (dictSet d k v) k = some v := by
  induction d with
  | nil => simp [dictSet, dictGet]
  | cons kv d ih =>
    by_cases h : kv.1 = k
    · simp [dictSet, dictGet, h]
    · simp [dictSet, dictGet, h, ih]

theorem dictGet_dictSet_ne (d : List (String × JVal)) (k k' : String) (v : JVal)
    (h : k' ≠ k) : dictGet (dictSet d k v) k' = dictGet d k' := by
  induction d with
  | nil => simp [dictSet, dictGet, Ne.symm h]
  | cons kv d ih =>
    by_cases hkv : kv.1 = k
    · subst hkv
      simp [dictSet, dictGet, Ne.symm h]
    · by_cases hkv' : kv.1 = k'
      · simp [dictSet, dictGet, hkv, hkv', h]
      · simp [dictSet, dictGet, hkv, hkv', ih]

theorem foldl_dictSet_notMem (F : String → JVal) (L : List String)
    (d : List (String × JVal)) (k : String) (h : k ∉ L) :
    dictGet (L.foldl (fun d s => dictSet d s (F s)) d) k = dictGet d k := by
  induction L generalizing d with
  | nil => rfl
  | cons a L ih =>
    simp only [List.mem_cons, not_or] at h
    simp only [List.foldl_cons]
    rw [ih _ h.2, dictGet_dictSet_ne _ _ _ _ h.1]

theorem foldl_dictSet_mem (F : String → JVal) (L : List String)
    (d : List (String × JVal)) (s : String) (h : s ∈ L) :
    dictGet (L.foldl (fun d s => dictSet d s (F s)) d) s = some (F s) := by
  induction L generalizing d with
  | nil => simp at h
  | cons a L ih =>
    simp only [List.foldl_cons]
    by_cases hs : s ∈ L
    · exact ih _ hs
    · have : s = a := by
        rcases List.mem_cons.mp h with h' | h'
        · exact h'
        · exact absurd h' hs
      subst this
      rw [foldl_dictSet_notMem _ _ _ _ hs, dictGet_dictSet_same]

theorem mem_insertSorted (a s : String) (l : List String) :
    a ∈ insertSorted s l ↔ a = s ∨ a ∈ l := by
  induction l with
  | nil => simp [insertSorted]
  | cons x xs ih =>
    by_cases h : strLe s x
    · simp [insertSorted, h]
    · simp only [insertSorted, h, Bool.false_eq_true, if_false, List.mem_cons, ih]
      tauto

theorem mem_sortStrings (a : String) (l : List String) :
    a ∈ sortStrings l ↔ a ∈ l := by
  induction l with
  | nil => simp [sortStrings]
  | cons x xs ih =>
    simp only [sortStrings, List.foldr_cons] at *
    rw [mem_insertSorted, ih, List.mem_cons]

theorem mem_npUnique (a : String) (l : List String) :
    a ∈ npUnique l ↔ a ∈ l := by
  rw [npUnique, mem_sortStrings, List.mem_dedup]

/-! ## The key order and the sorting of serialized entries -/

theorem charListLe_total : ∀ as bs : List Char,
    charListLe as bs = true ∨ charListLe bs as = true
  | [], _ => Or.inl rfl
  | _ :: _, [] => Or.inr rfl
  | a :: as, b :: bs => by
    by_cases hab : a < b
    · left
      simp [charListLe, hab]
    · by_cases hba : b < a
      · right
        simp [charListLe, hba]
      · have heq : a = b := le_antisymm (le_of_not_lt hba) (le_of_not_lt hab)
        subst heq
        rcases charListLe_total as bs with h | h
        · left
          simp [charListLe, h]
        · right
          simp [charListLe, h]

theorem charListLe_trans : ∀ as bs cs : List Char,
    charListLe as bs = true → charListLe bs cs = true →
    charListLe as cs = true
  | [], _, _, _, _ => rfl
  | _ :: _, [], _, h1, _ => by simp [charListLe] at h1
  | _ :: _, _ :: _, [], _, h2 => by simp [charListLe] at h2
  | a :: as, b :: bs, c :: cs, h1, h2 => by
    by_cases hab : a < b
    · by_cases hbc : b < c
      · simp [charListLe, lt_trans hab hbc]
      · by_cases hcb : c < b
        · simp [charListLe, hbc, hcb] at h2
        · have : b = c := le_antisymm (le_of_not_lt hcb) (le_of_not_lt hbc)
          subst this
          simp [charListLe, hab]
    · by_cases hba : b < a
      · simp [charListLe, hab, hba] at h1
      · have heq : a = b := le_antisymm (le_of_not_lt hba) (le_of_not_lt hab)
        subst heq
        simp only [charListLe, if_neg hab, if_neg hba] at h1
        by_cases hac : a < c
        · simp [charListLe, hac]
        · by_cases hca : c < a
          · simp [charListLe, hac, hca] at h2
          · simp only [charListLe, if_neg hac, if_neg hca] at h2 ⊢
            exact charListLe_trans as bs cs h1 h2

theorem strLe_total (s t : String) : strLe s t = true ∨ strLe t s = true :=
  charListLe_total s.data t.data

theorem strLe_trans (s t u : String) (h1 : strLe s t = true)
    (h2 : strLe t u = true) : strLe s u = true :=
  charListLe_trans s.data t.data u.data h1 h2

theorem mem_insertPairSorted (a kv : String × JVal) (l : List (String × JVal)) :
    a ∈ insertPairSorted kv l ↔ a = kv ∨ a ∈ l := by
  induction l with
  | nil => simp [insertPairSorted]
  | cons x xs ih =>
    by_cases h : strLe kv.1 x.1
    · simp [insertPairSorted, h]
    · simp only [insertPairSorted, h, Bool.false_eq_true, if_false, List.mem_cons, ih]
      tauto

theorem pairwise_insertPairSorted (kv : String × JVal) (l : List (String × JVal))
    (hl : l.Pairwise (fun a b => strLe a.1 b.1 = true)) :
    (insertPairSorted kv l).Pairwise (fun a b => strLe a.1 b.1 = true) := by
  induction l with
  | nil => simp [insertPairSorted]
  | cons x xs ih =>
    rcases List.pairwise_cons.mp hl with ⟨hx, hxs⟩
    by_cases h : strLe kv.1 x.1
    · simp only [insertPairSorted, h, if_true]
      refine List.pairwise_cons.mpr ⟨?_, hl⟩
      intro y hy
      rcases List.mem_cons.mp hy with rfl | hy'
      · exact h
      · exact strLe_trans _ _ _ h (hx y hy')
    · simp only [insertPairSorted, h, Bool.false_eq_true, if_false]
      refine List.pairwise_cons.mpr ⟨?_, ih hxs⟩
      intro y hy
      rcases (mem_insertPairSorted y kv xs).mp hy with hykv | hy'
      · rw [hykv]
        rcases strLe_total kv.1 x.1 with h' | h'
        · exact absurd h' h
        · exact h'
      · exact hx y hy'

/-- The serialized entry list is sorted by key. -/
theorem pairwise_sortPairs (l : List (String × JVal)) :
    (sortPairs l).Pairwise (fun a b => strLe a.1 b.1 = true) := by
  induction l with
  | nil => simp [sortPairs]
  | cons x xs ih => exact pairwise_insertPairSorted x _ ih

theorem perm_insertPairSorted (kv : String × JVal) (l : List (String × JVal)) :
    List.Perm (insertPairSorted kv l) (kv :: l) := by
  induction l with
  | nil => rfl
  | cons x xs ih =>
    by_cases h : strLe kv.1 x.1
    · simp [insertPairSorted, h]
    · simp only [insertPairSorted, h, Bool.false_eq_true, if_false]
      exact (ih.cons x).trans (List.Perm.swap kv x xs)

/-- The serialized entry list is a permutation of `results_grouped`'s
entries: exactly the same key/value pairs. -/
theorem perm_sortPairs (l : List (String × JVal)) : List.Perm (sortPairs l) l := by
  induction l with
  | nil => rfl
  | cons x xs ih => exact (perm_insertPairSorted x (sortPairs xs)).trans (ih.cons x)

/-! ## Filesystem lemmas -/

theorem saveLocal_files (fs : FS) (d p : String) :
    (saveLocal fs d).files p = if p = resultsPath then some d else fs.files p := by
  unfold saveLocal writeFile removeIfExists makedirs
  by_cases hp : p = resultsPath <;>
    by_cases hf : (fs.files resultsPath).isSome <;>
      simp [hp, hf, resultsDirname]

theorem saveLocal_dirs (fs : FS) (d dd : String) :
    (saveLocal fs d).dirs dd = if dd = resultsDirname then true else fs.dirs dd := by
  unfold saveLocal writeFile removeIfExists makedirs
  by_cases hf : (fs.files resultsPath).isSome <;>
    simp [resultsDirname, hf]

/-- What `results_grouped` holds at any key: the subset accuracies
(written last) shadow the two metadata entries, which in turn are the
only other keys. -/
theorem dictGet_resultsGrouped (model chat_template : String)
    (rows : List Row) (k : String) :
    dictGet (resultsGrouped model chat_template rows) k =
      if k ∈ rows.map Prod.fst then some (.num (subsetAccuracy rows k))
      else if "model" = k then some (.str model)
      else if "chat_template" = k then some (.str chat_template)
      else none := by
  unfold resultsGrouped
  by_cases hk : k ∈ npUnique (rows.map Prod.fst)
  · rw [foldl_dictSet_mem _ _ _ _ hk, if_pos ((mem_npUnique _ _).mp hk)]
  · rw [foldl_dictSet_notMem _ _ _ _ hk,
      if_neg (fun h => hk ((mem_npUnique _ _).mpr h))]
    simp [dictSet, dictGet]

/-! ## The claims -/

/-- Claim C1: for every (chosen, rejected) pair processed in the inference
loop, the recorded per-pair result is `1` exactly when the chosen
completion's score is strictly greater than the rejected completion's
score, and `0` otherwise — in particular a tie is recorded as `0`. -/
theorem claim_C1 (score_chosen score_rejected : List ℚ) (i : ℕ) (c r : ℚ)
    (hc : score_chosen[i]? = some c) (hr : score_rejected[i]? = some r) :
    (recordBatch score_chosen score_rejected)[i]? = some (if r < c then 1 else 0)
    ∧ ((recordBatch score_chosen score_rejected)[i]? = some 1 ↔ r < c)
    ∧ (c = r → (recordBatch score_chosen score_rejected)[i]? = some 0) := by
  have h := recordBatch_getElem? _ _ i c r hc hr
  refine ⟨h, ?_, ?_⟩
  · rw [h]
    by_cases hrc : r < c
    · simp [hrc]
    · simp [hrc]
  · intro hcr
    subst hcr
    rw [h]
    simp

/-- Witness for C1: a concrete pair with chosen score 1, rejected score 0. -/
theorem claim_C1_witness :
    (recordBatch [(1 : ℚ)] [(0 : ℚ)])[0]? = some (if (0 : ℚ) < 1 then 1 else 0)
    ∧ ((recordBatch [(1 : ℚ)] [(0 : ℚ)])[0]? = some 1 ↔ (0 : ℚ) < 1)
    ∧ ((1 : ℚ) = 0 → (recordBatch [(1 : ℚ)] [(0 : ℚ)])[0]? = some 0) :=
  claim_C1 [1] [0] 0 1 0 rfl rfl

/-- Claim C2: for every preference record of a batch, the implicit reward
of each side produced by the inference step is the DPO implicit-reward
formula — the policy model's sequence log-probability for that completion
compared against (minus) the reference model's. -/
theorem claim_C2 (policy_logp ref_logp : α → ℚ × ℚ) (batch : List α)
    (i : ℕ) (x : α) (hx : batch[i]? = some x) :
    (inference_step policy_logp ref_logp batch).1[i]? =
      some (implicitReward (policy_logp x).1 (ref_logp x).1)
    ∧ (inference_step policy_logp ref_logp batch).2[i]? =
      some (implicitReward (policy_logp x).2 (ref_logp x).2)
    ∧ implicitReward (policy_logp x).1 (ref_logp x).1 =
      (policy_logp x).1 - (ref_logp x).1
    ∧ implicitReward (policy_logp x).2 (ref_logp x).2 =
      (policy_logp x).2 - (ref_logp x).2 := by
  refine ⟨?_, ?_, rfl, rfl⟩
  · simp [inference_step, List.getElem?_map, hx]
  · simp [inference_step, List.getElem?_map, hx]

/-- Witness for C2: a concrete one-record batch with policy
log-probabilities (5, 2) and reference log-probabilities (1, 1). -/
theorem claim_C2_witness :
    (inference_step (fun _ : ℕ => ((5 : ℚ), 2)) (fun _ : ℕ => ((1 : ℚ), 1)) [7]).1[0]? =
      some (implicitReward 5 1)
    ∧ (inference_step (fun _ : ℕ => ((5 : ℚ), 2)) (fun _ : ℕ => ((1 : ℚ), 1)) [7]).2[0]? =
      some (implicitReward 2 1)
    ∧ implicitReward (5 : ℚ) 1 = 5 - 1
    ∧ implicitReward (2 : ℚ) 1 = 2 - 1 :=
  claim_C2 (fun _ => (5, 2)) (fun _ => (1, 1)) [7] 0 7 rfl

/-- Claim C3: with a positive batch size, the batches are drawn from the
dataset sequentially without shuffling and without dropping a final
partial batch — their concatenation is the dataset itself — and after the
loop the results list contains exactly one 0/1 entry per dataset record,
in dataset order. -/
theorem claim_C3 (b : ℕ) (hb : 0 < b) (policy_logp ref_logp : α → ℚ × ℚ)
    (ds : List α) :
    (batches b ds).flatten = ds
    ∧ runLoop policy_logp ref_logp (batches b ds) =
        ds.map (fun x =>
          if implicitReward (policy_logp x).2 (ref_logp x).2 <
              implicitReward (policy_logp x).1 (ref_logp x).1
          then 1 else 0)
    ∧ (runLoop policy_logp ref_logp (batches b ds)).length = ds.length
    ∧ ∀ v ∈ runLoop policy_logp ref_logp (batches b ds), v = 0 ∨ v = 1 := by
  have hflat := batches_flatten b hb ds
  have hmap := runLoop_eq_map policy_logp ref_logp (batches b ds)
  rw [hflat] at hmap
  refine ⟨hflat, hmap, ?_, ?_⟩
  · rw [hmap, List.length_map]
  · intro v hv
    rw [hmap] at hv
    obtain ⟨x, _, hvx⟩ := List.mem_map.mp hv
    by_cases hlt : implicitReward (policy_logp x).2 (ref_logp x).2 <
        implicitReward (policy_logp x).1 (ref_logp x).1
    · right
      rw [← hvx]
      simp [hlt]
    · left
      rw [← hvx]
      simp [hlt]

/-- Witness for C3: batch size 2 over a three-record dataset (the final
batch is partial). -/
theorem claim_C3_witness :
    (batches 2 ([10, 20, 30] : List ℕ)).flatten = [10, 20, 30] :=
  (claim_C3 2 (by decide) (fun n : ℕ => ((n : ℚ), 0)) (fun _ => (0, 0)) [10, 20, 30]).1

/-- Claim C7: the command-line interface accepts exactly the seven flags
--model, --ref_model, --tokenizer, --chat_template, --do_not_save,
--batch_size and --pref_sets; --do_not_save and --pref_sets are
`store_true` booleans (defaulting to false), --batch_size is an integer
defaulting to 64, and the remaining flags are strings. -/
theorem claim_C7 :
    cliArgs.map Prod.fst =
      ["--model", "--ref_model", "--tokenizer", "--chat_template",
       "--do_not_save", "--batch_size", "--pref_sets"]
    ∧ List.lookup "--do_not_save" cliArgs = some .storeTrue
    ∧ List.lookup "--pref_sets" cliArgs = some .storeTrue
    ∧ List.lookup "--batch_size" cliArgs = some (.int 64)
    ∧ List.lookup "--model" cliArgs = some (.str (some "natolambert/gpt2-dummy-rm"))
    ∧ List.lookup "--ref_model" cliArgs = some (.str (some "natolambert/gpt2-dummy-rm"))
    ∧ List.lookup "--tokenizer" cliArgs = some (.str none)
    ∧ List.lookup "--chat_template" cliArgs = some (.str (some "tulu")) := by
  decide

/-- Claim C8: when --tokenizer is not provided (default `None`) the
tokenizer is loaded from the --model path, and a separate tokenizer path
reaches the loader only when --tokenizer was explicitly set. -/
theorem claim_C8 (tokenizer : Option String) (model : String) :
    tokenizer_path none model = model
    ∧ (tokenizer_path tokenizer model ≠ model →
        ∃ s, tokenizer = some s ∧ tokenizer_path tokenizer model = s) := by
  constructor
  · rfl
  · intro h
    match tokenizer with
    | none => exact absurd rfl h
    | some s =>
      refine ⟨s, rfl, ?_⟩
      by_cases hs : s == ""
      · exfalso
        apply h
        simp [tokenizer_path, strOptTruthy, hs]
      · simp [tokenizer_path, strOptTruthy, hs]

/-- Witness for C8: an explicitly set tokenizer path distinct from the
model path. -/
theorem claim_C8_witness :
    ∃ s, (some "my-tok" : Option String) = some s ∧
      tokenizer_path (some "my-tok") "my-model" = s :=
  (claim_C8 (some "my-tok") "my-model").2 (by decide)

/-- Claim C9: the subsets iterated over are exactly the unique labels
occurring in the data, and each such subset has at least one record, so
its accuracy divisor `num_total` is positive. -/
theorem claim_C9 (rows : List Row) (s : String) :
    (s ∈ npUnique (rows.map Prod.fst) ↔ s ∈ rows.map Prod.fst)
    ∧ (s ∈ npUnique (rows.map Prod.fst) → 0 < num_total rows s) := by
  refine ⟨mem_npUnique _ _, ?_⟩
  intro hs
  rw [mem_npUnique] at hs
  obtain ⟨r, hr, hrs⟩ := List.mem_map.mp hs
  unfold num_total subsetResults
  rw [List.length_map]
  have hmem : r ∈ rows.filter (fun r => r.1 == s) :=
    List.mem_filter.mpr ⟨hr, by simp [hrs]⟩
  exact List.length_pos.mpr (List.ne_nil_of_mem hmem)

/-- Witness for C9: a one-record dataset with label "a". -/
theorem claim_C9_witness : 0 < num_total [("a", 1)] "a" :=
  (claim_C9 [("a", 1)] "a").2 (by decide)

/-- Counterexample to C4 as stated: when a subset is literally labelled
"model" (one record, result 1, model name "my-model"), the subset's
accuracy entry overwrites the model-name entry, so the file does not hold
the model name under key "model". -/
theorem claim_C4_counterexample :
    dictGet (resultsGrouped "my-model" "tulu" [("model", 1)]) "model" ≠
      some (.str "my-model") := by
  decide

/-- Claim C4 (amended): provided no subset label equals "model" or
"chat_template", the grouped results map "model" to the model name,
"chat_template" to the chat template, each subset label present in the
data to that subset's accuracy, and contain nothing else. -/
theorem claim_C4 (model chat_template : String) (rows : List Row)
    (hm : "model" ∉ rows.map Prod.fst)
    (hc : "chat_template" ∉ rows.map Prod.fst) :
    dictGet (resultsGrouped model chat_template rows) "model" =
      some (.str model)
    ∧ dictGet (resultsGrouped model chat_template rows) "chat_template" =
      some (.str chat_template)
    ∧ (∀ s ∈ rows.map Prod.fst,
        dictGet (resultsGrouped model chat_template rows) s =
          some (.num (subsetAccuracy rows s)))
    ∧ (∀ k v, dictGet (resultsGrouped model chat_template rows) k = some v →
        k = "model" ∨ k = "chat_template" ∨ k ∈ rows.map Prod.fst) := by
  refine ⟨?_, ?_, ?_, ?_⟩
  · rw [dictGet_resultsGrouped, if_neg hm, if_pos rfl]
  · rw [dictGet_resultsGrouped, if_neg hc, if_neg ?_, if_pos rfl]
    decide
  · intro s hs
    rw [dictGet_resultsGrouped, if_pos hs]
  · intro k v h
    rw [dictGet_resultsGrouped] at h
    by_cases hk : k ∈ rows.map Prod.fst
    · exact Or.inr (Or.inr hk)
    · rw [if_neg hk] at h
      by_cases hmk : "model" = k
      · exact Or.inl hmk.symm
      · rw [if_neg hmk] at h
        by_cases hck : "chat_template" = k
        · exact Or.inr (Or.inl hck.symm)
        · rw [if_neg hck] at h
          exact absurd h (by simp)

/-- Witness for C4 (amended): two records of a single subset "a" whose
label collides with neither metadata key. -/
theorem claim_C4_witness :
    dictGet (resultsGrouped "m" "t" [("a", 1), ("a", 0)]) "model" =
      some (.str "m") :=
  (claim_C4 "m" "t" [("a", 1), ("a", 0)] (by decide) (by decide)).1

/-- Claim C5: the results JSON is pushed to the remote dataset repository
iff --do_not_save is not set; with --do_not_save set no upload call is
made (the remote repository is untouched), while the local results file
is written in both cases. -/
theorem claim_C5 (args : Args) (fs : FS) (dumped : String) :
    ((saveAndUpload args fs dumped).2 = none ↔ args.do_not_save = true)
    ∧ (args.do_not_save = false →
        (saveAndUpload args fs dumped).2 = some (uploadCall args))
    ∧ (saveAndUpload args fs dumped).1.files resultsPath = some dumped := by
  refine ⟨?_, ?_, ?_⟩
  · unfold saveAndUpload
    cases h : args.do_not_save <;> simp [h]
  · intro h
    unfold saveAndUpload
    simp [h]
  · show (saveLocal fs dumped).files resultsPath = some dumped
    rw [saveLocal_files]
    simp

/-- Witness for C5: with saving enabled, the upload call is made. -/
theorem claim_C5_witness :
    (saveAndUpload sampleArgs ⟨fun _ => false, fun _ => none⟩ "d").2 =
      some (uploadCall sampleArgs) :=
  (claim_C5 sampleArgs ⟨fun _ => false, fun _ => none⟩ "d").2.1 rfl

/-- Claim C10: the local write is idempotent with respect to prior runs —
`results/` is created if missing, an existing `results/metrics.json` is
removed first, and afterwards the file holds exactly the JSON
serialization of the current run's grouped results, its keys sorted. -/
theorem claim_C10 (fs : FS) (render : JVal → String)
    (model chat_template : String) (rows : List Row) (d d' : String) :
    (saveLocal fs (pyDumps render (resultsGrouped model chat_template rows))).files
        resultsPath =
      some (pyDumps render (resultsGrouped model chat_template rows))
    ∧ (saveLocal fs d).dirs resultsDirname = true
    ∧ (fs.dirs resultsDirname = true → makedirs fs = fs)
    ∧ (removeIfExists (makedirs fs)).files resultsPath = none
    ∧ saveLocal (saveLocal fs d') d = saveLocal fs d
    ∧ (sortPairs (resultsGrouped model chat_template rows)).Pairwise
        (fun a b => strLe a.1 b.1 = true)
    ∧ List.Perm (sortPairs (resultsGrouped model chat_template rows))
        (resultsGrouped model chat_template rows) := by
  refine ⟨?_, ?_, ?_, ?_, ?_, pairwise_sortPairs _, perm_sortPairs _⟩
  · rw [saveLocal_files]
    simp
  · rw [saveLocal_dirs]
    simp
  · intro h
    unfold makedirs
    rw [if_neg (by decide : ¬ resultsDirname = "")]
    apply FS.ext
    · funext dd
      by_cases hd : dd = resultsDirname
      · subst hd
        simp [h]
      · simp [hd]
    · rfl
  · by_cases hf : (fs.files resultsPath).isSome
    · simp [removeIfExists, makedirs, resultsDirname, hf]
    · simp only [removeIfExists, makedirs, resultsDirname]
      rw [if_neg (by decide : ¬ ("results" : String) = "")]
      simp only [hf, Bool.false_eq_true, if_false]
      exact Option.not_isSome_iff_eq_none.mp hf
  · apply FS.ext
    · funext dd
      rw [saveLocal_dirs, saveLocal_dirs, saveLocal_dirs]
      by_cases hd : dd = resultsDirname <;> simp [hd]
    · funext p
      rw [saveLocal_files, saveLocal_files, saveLocal_files]
      by_cases hp : p = resultsPath <;> simp [hp]

/-- Witness for C10: `os.makedirs(..., exist_ok=True)` is a no-op on a
filesystem where `results/` already exists. -/
theorem claim_C10_witness :
    makedirs ⟨fun _ => true, fun _ => none⟩ = ⟨fun _ => true, fun _ => none⟩ :=
  (claim_C10 ⟨fun _ => true, fun _ => none⟩ (fun _ => "x") "m" "t" [] "d" "e").2.2.1 rfl

/-- Claim C6: the script defines no error handling of its own — whichever
library call is the first to raise, under success of the calls made
before it, its error is the value of the whole run, unchanged; and when
every call succeeds the run succeeds. -/
theorem claim_C6 (args : Args) (env : LibEnv ε Conv Tok Model Item) :
    (∀ e, env.get_conv_template = .error e → mainE args env = .error e)
    ∧ (∀ c e, env.get_conv_template = .ok c →
        env.tokenizer_from_pretrained = .error e →
        mainE args env = .error e)
    ∧ (∀ c t e, env.get_conv_template = .ok c →
        env.tokenizer_from_pretrained = .ok t →
        env.load_eval_dataset = .error e →
        mainE args env = .error e)
    ∧ (∀ c t ds e, env.get_conv_template = .ok c →
        env.tokenizer_from_pretrained = .ok t →
        env.load_eval_dataset = .ok ds →
        env.model_from_pretrained = .error e →
        mainE args env = .error e)
    ∧ (∀ c t ds m e, env.get_conv_template = .ok c →
        env.tokenizer_from_pretrained = .ok t →
        env.load_eval_dataset = .ok ds →
        env.model_from_pretrained = .ok m →
        env.ref_model_from_pretrained = .error e →
        mainE args env = .error e)
    ∧ (∀ c t ds m rm e, env.get_conv_template = .ok c →
        env.tokenizer_from_pretrained = .ok t →
        env.load_eval_dataset = .ok ds →
        env.model_from_pretrained = .ok m →
        env.ref_model_from_pretrained = .ok rm →
        mapME env.tokenize_row ds.1 = .error e →
        mainE args env = .error e)
    ∧ (∀ c t ds m rm tds e, env.get_conv_template = .ok c →
        env.tokenizer_from_pretrained = .ok t →
        env.load_eval_dataset = .ok ds →
        env.model_from_pretrained = .ok m →
        env.ref_model_from_pretrained = .ok rm →
        mapME env.tokenize_row ds.1 = .ok tds →
        loopE env.inference_step_outcome (batches args.batch_size tds) = .error e →
        mainE args env = .error e)
    ∧ (∀ c t ds m rm tds res e, env.get_conv_template = .ok c →
        env.tokenizer_from_pretrained = .ok t →
        env.load_eval_dataset = .ok ds →
        env.model_from_pretrained = .ok m →
        env.ref_model_from_pretrained = .ok rm →
        mapME env.tokenize_row ds.1 = .ok tds →
        loopE env.inference_step_outcome (batches args.batch_size tds) = .ok res →
        env.write_results = .error e →
        mainE args env = .error e)
    ∧ (∀ c t ds m rm tds res e, args.do_not_save = false →
        env.get_conv_template = .ok c →
        env.tokenizer_from_pretrained = .ok t →
        env.load_eval_dataset = .ok ds →
        env.model_from_pretrained = .ok m →
        env.ref_model_from_pretrained = .ok rm →
        mapME env.tokenize_row ds.1 = .ok tds →
        loopE env.inference_step_outcome (batches args.batch_size tds) = .ok res →
        env.write_results = .ok () →
        env.upload_file = .error e →
        mainE args env = .error e)
    ∧ (∀ c t ds m rm tds res url, env.get_conv_template = .ok c →
        env.tokenizer_from_pretrained = .ok t →
        env.load_eval_dataset = .ok ds →
        env.model_from_pretrained = .ok m →
        env.ref_model_from_pretrained = .ok rm →
        mapME env.tokenize_row ds.1 = .ok tds →
        loopE env.inference_step_outcome (batches args.batch_size tds) = .ok res →
        env.write_results = .ok () →
        env.upload_file = .ok url →
        mainE args env =
          .ok (res, if args.do_not_save then none else some url)) := by
  refine ⟨?_, ?_, ?_, ?_, ?_, ?_, ?_, ?_, ?_, ?_⟩
  · intro e h1
    simp [mainE, h1, Except.bind]
  · intro c e h1 h2
    simp [mainE, h1, h2, Except.bind]
  · intro c t e h1 h2 h3
    simp [mainE, h1, h2, h3, Except.bind]
  · intro c t ds e h1 h2 h3 h4
    simp [mainE, h1, h2, h3, h4, Except.bind]
  · intro c t ds m e h1 h2 h3 h4 h5
    simp [mainE, h1, h2, h3, h4, h5, Except.bind]
  · intro c t ds m rm e h1 h2 h3 h4 h5 h6
    simp [mainE, h1, h2, h3, h4, h5, h6, Except.bind]
  · intro c t ds m rm tds e h1 h2 h3 h4 h5 h6 h7
    simp [mainE, h1, h2, h3, h4, h5, h6, h7, Except.bind]
  · intro c t ds m rm tds res e h1 h2 h3 h4 h5 h6 h7 h8
    simp [mainE, h1, h2, h3, h4, h5, h6, h7, h8, Except.bind]
  · intro c t ds m rm tds res e hsave h1 h2 h3 h4 h5 h6 h7 h8 h9
    simp [mainE, hsave, h1, h2, h3, h4, h5, h6, h7, h8, h9,
      Except.bind, Except.map]
  · intro c t ds m rm tds res url h1 h2 h3 h4 h5 h6 h7 h8 h9
    cases hsave : args.do_not_save <;>
      simp [mainE, hsave, h1, h2, h3, h4, h5, h6, h7, h8, h9,
        Except.bind, Except.map]

/-- Witness for C6: an environment whose chat-template lookup raises
error 0 makes the whole run return error 0. -/
theorem claim_C6_witness :
    mainE sampleArgs
      (⟨.error 0, .ok (), .ok ([], []), .ok (), .ok (), fun _ => .ok (),
        fun _ => .ok ([], []), .ok (), .ok ""⟩ :
        LibEnv ℕ Unit Unit Unit Unit) = .error 0 :=
  (claim_C6 sampleArgs _).1 0 rfl

end RunDPO
